import Mathlib

/-
  Shallow embedding of src/server.js (webrtc-signaling-server).

  The server keeps two Maps, `rooms : Map<roomId, Set<socketId>>` and
  `users : Map<socketId, {username, roomId}>`, plus the socket.io transport
  state: the set of live sockets and, per socket, the set of transport
  rooms it has joined (every socket is auto-joined to a transport room
  named by its own id; `socket.join` and `socket.leave` mutate this set;
  `socket.to(room).emit` delivers to every live socket in that transport
  room except the sender).

  JavaScript values that may be undefined are modelled as Option String
  (none = undefined).  A Map is an association list; Map.set replaces the
  value at the first matching key or appends; Map.delete removes the key;
  a Set is a duplicate-free list with add appending and delete filtering.
  A handler that throws (destructuring or reading a field of an undefined
  payload) is modelled by the step function returning none.
-/

/-- A JavaScript string value that may be undefined (none = undefined). -/
abbrev JsStr := Option String

/-- Lookup in a JavaScript Map modelled as an association list. -/
def mapGet {α β : Type} [DecidableEq α] : List (α × β) → α → Option β
  | [], _ => none
  | p :: rest, k => if p.1 = k then some p.2 else mapGet rest k

/-- Map.set: replace the value at the first matching key, else append. -/
def mapSet {α β : Type} [DecidableEq α] : List (α × β) → α → β → List (α × β)
  | [], k, v => [(k, v)]
  | p :: rest, k, v => if p.1 = k then (k, v) :: rest else p :: mapSet rest k v

/-- Map.delete: remove every entry with the given key. -/
def mapDelete {α β : Type} [DecidableEq α] : List (α × β) → α → List (α × β)
  | [], _ => []
  | p :: rest, k => if p.1 = k then mapDelete rest k else p :: mapDelete rest k

/-- Set.add: append the element if it is not already present. -/
def setAdd {α : Type} [DecidableEq α] (s : List α) (x : α) : List α :=
  if x ∈ s then s else s ++ [x]

/-- Set.delete: remove the element. -/
def setDelete {α : Type} [DecidableEq α] (s : List α) (x : α) : List α :=
  s.filter (fun y => decide (¬ y = x))

/-- The record stored in the users Map: `{ username, roomId }`. -/
structure UserRec where
  username : JsStr
  roomId : JsStr
deriving DecidableEq

/-- The whole server state: the transport state (live sockets and their
transport-room memberships) and the two application Maps of server.js. -/
structure ServerState where
  live : List String
  ioRooms : List (String × List JsStr)
  users : List (String × UserRec)
  rooms : List (JsStr × List String)
deriving DecidableEq

/-- The state before any connection: both Maps empty, no sockets. -/
def ServerState.empty : ServerState := ⟨[], [], [], []⟩

/-- The transport rooms a socket is currently in (empty if unknown). -/
def ioRoomsOf (st : ServerState) (s : String) : List JsStr :=
  (mapGet st.ioRooms s).getD []

/-- The recipients of `socket.to(room).emit(...)`: every live socket in
the transport room `room` other than the sender. -/
def roomRecipients (st : ServerState) (room : JsStr) (sender : String) : List String :=
  st.live.filter (fun s => decide (¬ s = sender) && decide (room ∈ ioRoomsOf st s))

/-- `users.get(id)?.username`: the display name currently recorded for a
socket, undefined when the socket has no entry or the recorded name is
itself undefined. -/
def userNameOf (st : ServerState) (sid : String) : JsStr :=
  (mapGet st.users sid).bind (fun u => u.username)

/-- Outbound events emitted by the router, tagged with the recipient. -/
inductive OutEvent where
  | usersInRoom (target : String) (others : List (String × JsStr))
  | userJoined (target : String) (id : String) (username : JsStr)
  | userLeft (target : String) (id : String) (username : JsStr)
  | offer (target : String) (fromId : String) (fromUsername : JsStr) (sdp : JsStr)
  | answer (target : String) (fromId : String) (fromUsername : JsStr) (sdp : JsStr)
  | iceCandidate (target : String) (fromId : String) (candidate : JsStr)
  | message (target : String) (fromId : String) (username : JsStr)
      (text : JsStr) (timestamp : Nat)
deriving DecidableEq

/-- Whether an outbound event is a user-left broadcast. -/
def OutEvent.isUserLeft : OutEvent → Bool
  | .userLeft _ _ _ => true
  | _ => false

/-- Whether an outbound event is a user-joined broadcast. -/
def OutEvent.isUserJoined : OutEvent → Bool
  | .userJoined _ _ _ => true
  | _ => false

/-- Inbound events, tagged with the sending socket.  For each event the
payload is an Option: none models an absent (undefined) payload object,
whose destructuring throws in the handler; inside a present payload each
field is again an Option because the field itself may be missing. -/
inductive Event where
  | joinRoom (sid : String) (data : Option (JsStr × JsStr))
  | offer (sid : String) (data : Option (JsStr × JsStr))
  | answer (sid : String) (data : Option (JsStr × JsStr))
  | iceCandidate (sid : String) (data : Option (JsStr × JsStr))
  | message (sid : String) (data : Option JsStr)
  | disconnect (sid : String)
deriving DecidableEq

/-- The socket an inbound event comes from. -/
def Event.sender : Event → String
  | .joinRoom sid _ => sid
  | .offer sid _ => sid
  | .answer sid _ => sid
  | .iceCandidate sid _ => sid
  | .message sid _ => sid
  | .disconnect sid => sid

/-- The leave-previous-rooms loop followed by `socket.join(roomId)` of the
join-room handler: keep only the transport room named by the own socket id,
then add the new room. -/
def joinIoUpdate (st : ServerState) (sid : String) (rid : JsStr) : List JsStr :=
  setAdd ((ioRoomsOf st sid).filter (fun r => decide (r = some sid))) rid

/-- The rooms-Map update of the join-room handler: create the room if
absent, then add the socket id to its member set. -/
def roomsJoin (rooms : List (JsStr × List String)) (rid : JsStr) (sid : String) :
    List (JsStr × List String) :=
  let rooms1 := if (mapGet rooms rid).isSome then rooms else mapSet rooms rid []
  mapSet rooms1 rid (setAdd ((mapGet rooms1 rid).getD []) sid)

/-- The rooms-Map update of the disconnect handler: if the room exists,
remove the socket id from its member set and delete the room when the
member set becomes empty. -/
def roomsLeave (rooms : List (JsStr × List String)) (rid : JsStr) (sid : String) :
    List (JsStr × List String) :=
  match mapGet rooms rid with
  | none => rooms
  | some mem =>
    let mem2 := setDelete mem sid
    if mem2 = [] then mapDelete rooms rid else mapSet rooms rid mem2

/-- The `otherUsers` snapshot of the join-room handler: every member of
the room other than the joiner, paired with the display name looked up in
the users Map. -/
def joinSnapshot (st : ServerState) (rid : JsStr) (sid : String) :
    List (String × JsStr) :=
  (((mapGet st.rooms rid).getD []).filter (fun i => decide (¬ i = sid))).map
    (fun i => (i, userNameOf st i))

/-- The join-room handler (server.js lines 39-81): leave previous
transport rooms, join the new transport room, record the user, add the
socket to the rooms Map, then emit the users-in-room snapshot to the
joiner and a user-joined broadcast to the transport room. -/
def handleJoinRoom (st : ServerState) (sid : String) (rid nm : JsStr) :
    ServerState × List OutEvent :=
  let st3 : ServerState :=
    { st with
      ioRooms := mapSet st.ioRooms sid (joinIoUpdate st sid rid),
      users := mapSet st.users sid ⟨nm, rid⟩,
      rooms := roomsJoin st.rooms rid sid }
  (st3,
   OutEvent.usersInRoom sid (joinSnapshot st3 rid sid)
     :: (roomRecipients st3 rid sid).map (fun r => OutEvent.userJoined r sid nm))

/-- The offer handler (server.js lines 84-95): stateless relay of the
offer to the transport room named by targetId, with the display name of
the sender looked up in the users Map. -/
def handleOffer (st : ServerState) (sid : String) (targetId payload : JsStr) :
    ServerState × List OutEvent :=
  (st, (roomRecipients st targetId sid).map
    (fun r => OutEvent.offer r sid (userNameOf st sid) payload))

/-- The answer handler (server.js lines 98-109): same relay pattern as
offer. -/
def handleAnswer (st : ServerState) (sid : String) (targetId payload : JsStr) :
    ServerState × List OutEvent :=
  (st, (roomRecipients st targetId sid).map
    (fun r => OutEvent.answer r sid (userNameOf st sid) payload))

/-- The ice-candidate handler (server.js lines 112-119): relay without a
display-name lookup. -/
def handleIceCandidate (st : ServerState) (sid : String) (targetId payload : JsStr) :
    ServerState × List OutEvent :=
  (st, (roomRecipients st targetId sid).map
    (fun r => OutEvent.iceCandidate r sid payload))

/-- The message handler (server.js lines 122-135): ignore senders with no
users entry; otherwise read data.message (throws when the payload object
is absent, modelled by none) and relay to the transport room of the
recorded roomId with a timestamp assigned at relay time. -/
def handleMessage (st : ServerState) (sid : String) (data : Option JsStr)
    (now : Nat) : Option (ServerState × List OutEvent) :=
  match mapGet st.users sid with
  | none => some (st, [])
  | some u =>
    match data with
    | none => none
    | some txt =>
      some (st, (roomRecipients st u.roomId sid).map
        (fun r => OutEvent.message r sid u.username txt now))

/-- The transport-level part of a disconnect: the socket stops being live
and leaves all its transport rooms before the disconnect handler runs. -/
def removeConn (st : ServerState) (sid : String) : ServerState :=
  { st with live := setDelete st.live sid, ioRooms := mapDelete st.ioRooms sid }

/-- The disconnect handler (server.js lines 138-165): if the socket has a
users entry, remove it from the member set of its recorded room (deleting
the room if emptied) and broadcast user-left to that transport room with
the display name captured before removal; always delete the users
entry. -/
def handleDisconnect (st : ServerState) (sid : String) :
    ServerState × List OutEvent :=
  let st1 := removeConn st sid
  match mapGet st1.users sid with
  | none => ({ st1 with users := mapDelete st1.users sid }, [])
  | some u =>
    ({ st1 with
        users := mapDelete st1.users sid,
        rooms := roomsLeave st1.rooms u.roomId sid },
     (roomRecipients st1 u.roomId sid).map
       (fun r => OutEvent.userLeft r sid u.username))

/-- Accepting a new connection: the socket becomes live and is auto-joined
to the transport room named by its own id. -/
def handleConnect (st : ServerState) (sid : String) : ServerState :=
  { st with
    live := setAdd st.live sid,
    ioRooms := mapSet st.ioRooms sid [some sid] }

/-- One dispatch of an inbound event.  `now` is the clock value at relay
time (Date.now()).  The result is none when the handler throws, which
happens exactly when a handler destructures or reads a field of an absent
payload. -/
def step (st : ServerState) (e : Event) (now : Nat) :
    Option (ServerState × List OutEvent) :=
  match e with
  | .joinRoom sid data =>
    match data with
    | none => none
    | some (rid, nm) => some (handleJoinRoom st sid rid nm)
  | .offer sid data =>
    match data with
    | none => none
    | some (targetId, payload) => some (handleOffer st sid targetId payload)
  | .answer sid data =>
    match data with
    | none => none
    | some (targetId, payload) => some (handleAnswer st sid targetId payload)
  | .iceCandidate sid data =>
    match data with
    | none => none
    | some (targetId, payload) => some (handleIceCandidate st sid targetId payload)
  | .message sid data => handleMessage st sid data now
  | .disconnect sid => some (handleDisconnect st sid)

/-- The health check endpoint (server.js lines 26-32): the pair
(rooms.size, users.size) reported as activeRooms and activeUsers. -/
def healthResponse (st : ServerState) : Nat × Nat :=
  (st.rooms.length, st.users.length)

/-- The states reachable by the event-driven server: the empty state, a
new connection with a fresh id, or a successfully dispatched event from a
live socket. -/
inductive Reachable : ServerState → Prop where
  | init : Reachable ServerState.empty
  | connect : (st : ServerState) → (sid : String) → Reachable st →
      ¬ sid ∈ st.live → Reachable (handleConnect st sid)
  | ev : (st st2 : ServerState) → (e : Event) → (t : Nat) →
      (out : List OutEvent) → Reachable st → e.sender ∈ st.live →
      step st e t = some (st2, out) → Reachable st2

/-- Spec invariant 2 restricted to the direction that does hold in the
code: a users entry always points at a room whose member set contains the
socket. -/
def dirCoherent (st : ServerState) : Prop :=
  ∀ sid u, mapGet st.users sid = some u →
    sid ∈ (mapGet st.rooms u.roomId).getD []

/-- Spec invariant 3: no entry of the rooms Map has an empty member
set. -/
def noEmptyRooms (st : ServerState) : Prop :=
  ∀ p, p ∈ st.rooms → ¬ p.2 = ([] : List String)

/-- The direction of spec invariant 4 that holds in the code: every users
entry belongs to a live socket. -/
def usersLive (st : ServerState) : Prop :=
  ∀ sid, (mapGet st.users sid).isSome = true → sid ∈ st.live

/-- The conjunction of the invariants that are preserved by every
event. -/
def GoodState (st : ServerState) : Prop :=
  dirCoherent st ∧ noEmptyRooms st ∧ usersLive st

/-- Example trace, step 1: socket A connects. -/
def exSt1 : ServerState := handleConnect ServerState.empty "A"

/-- Example trace, step 2: A joins room r1 as alice. -/
def exP2 : ServerState × List OutEvent :=
  handleJoinRoom exSt1 "A" (some "r1") (some "alice")

/-- The state after A joined r1. -/
def exSt2 : ServerState := exP2.1

/-- The outbound events of the join of A to r1. -/
def exOut2 : List OutEvent := exP2.2

/-- Example trace, step 3: A joins room r2, without having disconnected
from r1. -/
def exP3 : ServerState × List OutEvent :=
  handleJoinRoom exSt2 "A" (some "r2") (some "alice")

/-- The state after A joined r2 on top of r1. -/
def exSt3 : ServerState := exP3.1

/-- The outbound events of the join of A to r2. -/
def exOut3 : List OutEvent := exP3.2

/-- Ghost trace, step 2: socket C connects after A. -/
def gSt2 : ServerState := handleConnect exSt1 "C"

/-- Ghost trace, step 3: C joins r1 as carol. -/
def gP3 : ServerState × List OutEvent :=
  handleJoinRoom gSt2 "C" (some "r1") (some "carol")

/-- The state after C joined r1. -/
def gSt3 : ServerState := gP3.1

/-- Ghost trace, branch a, step 4: A joins r1 as alice. -/
def gP4a : ServerState × List OutEvent :=
  handleJoinRoom gSt3 "A" (some "r1") (some "alice")

/-- The state after A joined r1 alongside C. -/
def gSt4a : ServerState := gP4a.1

/-- Ghost trace, branch a, step 5: C moves on to r2; its id stays in the
member set of r1 in the rooms Map. -/
def gP5a : ServerState × List OutEvent :=
  handleJoinRoom gSt4a "C" (some "r2") (some "carol")

/-- The state with the ghost membership: rooms Map lists C under both r1
and r2, while C is only in the transport room of r2. -/
def gSt5a : ServerState := gP5a.1

/-- Disconnect of A in the ghost state. -/
def c8xP : ServerState × List OutEvent := handleDisconnect gSt5a "A"

/-- The state after A disconnected from the ghost state. -/
def c8xSt : ServerState := c8xP.1

/-- The outbound events of the disconnect of A in the ghost state. -/
def c8xOut : List OutEvent := c8xP.2

/-- Ghost trace, branch b, step 4: C moves to r2 before A arrives. -/
def gP4b : ServerState × List OutEvent :=
  handleJoinRoom gSt3 "C" (some "r2") (some "carol")

/-- The state where C is a ghost member of r1 and nobody else is there. -/
def gSt4b : ServerState := gP4b.1

/-- Ghost trace, branch b, step 5: A joins r1; the snapshot lists the
ghost C but no user-joined broadcast reaches C. -/
def gP5b : ServerState × List OutEvent :=
  handleJoinRoom gSt4b "A" (some "r1") (some "alice")

/-- The state after A joined r1 in branch b. -/
def gSt5b : ServerState := gP5b.1

/-- The outbound events of the join of A to r1 in branch b. -/
def gOut5b : List OutEvent := gP5b.2

/-- Witness state for the relay claims: A and B connected, A joined r1 as
alice, B still unjoined. -/
def w5St : ServerState :=
  (handleJoinRoom (handleConnect (handleConnect ServerState.empty "A") "B")
    "A" (some "r1") (some "alice")).1

/-- Witness state for the unjoined-relay claim: A and B connected, nobody
joined any room. -/
def w10St : ServerState :=
  handleConnect (handleConnect ServerState.empty "A") "B"

/-- First disconnect of A from exSt2. -/
def w8P1 : ServerState × List OutEvent := handleDisconnect exSt2 "A"

/-- The state after the first disconnect of A. -/
def w8St1 : ServerState := w8P1.1

/-- The outbound events of the first disconnect of A. -/
def w8Out1 : List OutEvent := w8P1.2

/-- Second disconnect of A, on the state that already dropped it. -/
def w8P2 : ServerState × List OutEvent := handleDisconnect w8St1 "A"

/-- The state after the second disconnect of A. -/
def w8St2 : ServerState := w8P2.1

/-- The outbound events of the second disconnect of A. -/
def w8Out2 : List OutEvent := w8P2.2

/-- Looking up the key just set yields the new value. -/
theorem mapGet_set_self {α β : Type} [DecidableEq α] (m : List (α × β))
    (k : α) (v : β) : mapGet (mapSet m k v) k = some v := by
  induction m with
  | nil => simp [mapSet, mapGet]
  | cons p rest ih =>
    by_cases h : p.1 = k
    · simp [mapSet, h, mapGet]
    · simp [mapSet, h, mapGet, ih]

/-- Setting one key leaves lookups of other keys unchanged. -/
theorem mapGet_set_ne {α β : Type} [DecidableEq α] (m : List (α × β))
    (k k2 : α) (v : β) (h : ¬ k2 = k) :
    mapGet (mapSet m k v) k2 = mapGet m k2 := by
  have h2 : ¬ k = k2 := fun hh => h hh.symm
  induction m with
  | nil => simp [mapSet, mapGet, h2]
  | cons p rest ih =>
    by_cases hp : p.1 = k
    · simp [mapSet, hp, mapGet, h2, fun hh : p.1 = k2 => h2 (hp ▸ hh)]
    · simp only [mapSet, hp, if_false, mapGet]
      by_cases hq : p.1 = k2
      · simp [hq]
      · simp [hq, ih]

/-- Looking up a deleted key yields nothing. -/
theorem mapGet_delete_self {α β : Type} [DecidableEq α] (m : List (α × β))
    (k : α) : mapGet (mapDelete m k) k = none := by
  induction m with
  | nil => simp [mapDelete, mapGet]
  | cons p rest ih =>
    by_cases h : p.1 = k
    · simp [mapDelete, h, ih]
    · simp [mapDelete, h, mapGet, ih]

/-- Deleting one key leaves lookups of other keys unchanged. -/
theorem mapGet_delete_ne {α β : Type} [DecidableEq α] (m : List (α × β))
    (k k2 : α) (h : ¬ k2 = k) :
    mapGet (mapDelete m k) k2 = mapGet m k2 := by
  induction m with
  | nil => simp [mapDelete]
  | cons p rest ih =>
    by_cases hp : p.1 = k
    · have hq : ¬ p.1 = k2 := fun hh => h (hh ▸ hp)
      have h2 : ¬ k = k2 := fun hh => h hh.symm
      simp [mapDelete, hp, mapGet, hq, h2, ih]
    · simp only [mapDelete, hp, if_false, mapGet]
      by_cases hq : p.1 = k2
      · simp [hq]
      · simp [hq, ih]

/-- Deleting an absent key is a no-op. -/
theorem mapDelete_absent {α β : Type} [DecidableEq α] (m : List (α × β))
    (k : α) (h : mapGet m k = none) : mapDelete m k = m := by
  induction m with
  | nil => simp [mapDelete]
  | cons p rest ih =>
    by_cases hp : p.1 = k
    · simp [mapGet, hp] at h
    · simp only [mapGet, hp, if_false] at h
      simp [mapDelete, hp, ih h]

/-- Every entry of a map after a set is either the new pair or an entry of
the old map. -/
theorem mem_mapSet {α β : Type} [DecidableEq α] (m : List (α × β))
    (k : α) (v : β) (q : α × β) (hq : q ∈ mapSet m k v) :
    q = (k, v) ∨ q ∈ m := by
  induction m with
  | nil => simp [mapSet] at hq; simp [hq]
  | cons p rest ih =>
    by_cases h : p.1 = k
    · simp only [mapSet, h, if_true] at hq
      rcases List.mem_cons.mp hq with h1 | h1
      · exact Or.inl h1
      · exact Or.inr (List.mem_cons_of_mem _ h1)
    · simp only [mapSet, h, if_false] at hq
      rcases List.mem_cons.mp hq with h1 | h1
      · exact Or.inr (h1 ▸ List.mem_cons_self _ _)
      · rcases ih h1 with h2 | h2
        · exact Or.inl h2
        · exact Or.inr (List.mem_cons_of_mem _ h2)

/-- Every entry surviving a delete was an entry of the old map. -/
theorem mem_mapDelete {α β : Type} [DecidableEq α] (m : List (α × β))
    (k : α) (q : α × β) (hq : q ∈ mapDelete m k) : q ∈ m := by
  induction m with
  | nil => simp [mapDelete] at hq
  | cons p rest ih =>
    by_cases h : p.1 = k
    · simp only [mapDelete, h, if_true] at hq
      exact List.mem_cons_of_mem _ (ih hq)
    · simp only [mapDelete, h, if_false] at hq
      rcases List.mem_cons.mp hq with h1 | h1
      · exact h1 ▸ List.mem_cons_self _ _
      · exact List.mem_cons_of_mem _ (ih h1)

/-- Membership after a Set.add. -/
theorem mem_setAdd {α : Type} [DecidableEq α] (s : List α) (x y : α) :
    y ∈ setAdd s x ↔ y ∈ s ∨ y = x := by
  by_cases h : x ∈ s
  · simp only [setAdd, h, if_true]
    constructor
    · exact Or.inl
    · rintro (h1 | rfl)
      · exact h1
      · exact h
  · simp [setAdd, h]

/-- A Set.add never produces the empty set. -/
theorem setAdd_ne_nil {α : Type} [DecidableEq α] (s : List α) (x : α) :
    ¬ setAdd s x = [] := by
  intro h
  have : x ∈ setAdd s x := (mem_setAdd s x x).mpr (Or.inr rfl)
  rw [h] at this
  exact List.not_mem_nil x this

/-- Membership after a Set.delete. -/
theorem mem_setDelete {α : Type} [DecidableEq α] (s : List α) (x y : α) :
    y ∈ setDelete s x ↔ y ∈ s ∧ ¬ y = x := by
  simp [setDelete, List.mem_filter]

/-- Setting an absent key appends the entry. -/
theorem mapSet_absent {α β : Type} [DecidableEq α] (m : List (α × β))
    (k : α) (v : β) (h : mapGet m k = none) :
    mapSet m k v = m ++ [(k, v)] := by
  induction m with
  | nil => simp [mapSet]
  | cons p rest ih =>
    by_cases hp : p.1 = k
    · simp [mapGet, hp] at h
    · simp only [mapGet, hp, if_false] at h
      simp [mapSet, hp, ih h]

/-- Overwriting the appended entry of an absent key replaces it in
place. -/
theorem mapSet_append_absent {α β : Type} [DecidableEq α] (m : List (α × β))
    (k : α) (v w : β) (h : mapGet m k = none) :
    mapSet (m ++ [(k, v)]) k w = m ++ [(k, w)] := by
  induction m with
  | nil => simp [mapSet]
  | cons p rest ih =>
    by_cases hp : p.1 = k
    · simp [mapGet, hp] at h
    · simp only [mapGet, hp, if_false] at h
      simp [mapSet, hp, ih h]

/-- After the rooms-Map update of a join, the joined room holds its old
member set extended with the joiner. -/
theorem roomsJoin_get_self (rooms : List (JsStr × List String)) (rid : JsStr)
    (sid : String) :
    mapGet (roomsJoin rooms rid sid) rid
      = some (setAdd ((mapGet rooms rid).getD []) sid) := by
  cases h : mapGet rooms rid with
  | none =>
    simp only [roomsJoin, h, Option.isSome_none, Bool.false_eq_true, if_false]
    rw [mapGet_set_self, mapGet_set_self]
    simp
  | some mem =>
    simp only [roomsJoin, h, Option.isSome_some, if_true]
    rw [mapGet_set_self]

/-- The rooms-Map update of a join does not touch other rooms. -/
theorem roomsJoin_get_ne (rooms : List (JsStr × List String)) (rid r : JsStr)
    (sid : String) (h : ¬ r = rid) :
    mapGet (roomsJoin rooms rid sid) r = mapGet rooms r := by
  cases hm : mapGet rooms rid with
  | none =>
    simp only [roomsJoin, hm, Option.isSome_none, Bool.false_eq_true, if_false]
    rw [mapGet_set_ne _ _ _ _ h, mapGet_set_ne _ _ _ _ h]
  | some mem =>
    simp only [roomsJoin, hm, Option.isSome_some, if_true]
    rw [mapGet_set_ne _ _ _ _ h]

/-- A join into a room that is absent from the rooms Map creates a fresh
room whose member set is exactly the joiner. -/
theorem roomsJoin_fresh (rooms : List (JsStr × List String)) (rid : JsStr)
    (sid : String) (h : mapGet rooms rid = none) :
    mapGet (roomsJoin rooms rid sid) rid = some [sid] := by
  rw [roomsJoin_get_self, h]
  simp [setAdd]

/-- A join preserves membership of any socket in any room of the rooms
Map. -/
theorem roomsJoin_mem_preserved (rooms : List (JsStr × List String))
    (rid : JsStr) (sid : String) (r : JsStr) (sid2 : String)
    (h : sid2 ∈ (mapGet rooms r).getD []) :
    sid2 ∈ (mapGet (roomsJoin rooms rid sid) r).getD [] := by
  by_cases hr : r = rid
  · subst hr
    rw [roomsJoin_get_self]
    simp only [Option.getD_some]
    exact (mem_setAdd _ _ _).mpr (Or.inl h)
  · rw [roomsJoin_get_ne _ _ _ _ hr]
    exact h

/-- A join never creates an entry of the rooms Map with an empty member
set. -/
theorem roomsJoin_no_empty (rooms : List (JsStr × List String)) (rid : JsStr)
    (sid : String) (h : ∀ q, q ∈ rooms → ¬ q.2 = ([] : List String)) :
    ∀ q, q ∈ roomsJoin rooms rid sid → ¬ q.2 = ([] : List String) := by
  intro q hq
  cases hm : mapGet rooms rid with
  | some mem =>
    simp only [roomsJoin, hm, Option.isSome_some, if_true, Option.getD_some] at hq
    rcases mem_mapSet _ _ _ _ hq with h1 | h1
    · rw [h1]; exact setAdd_ne_nil _ _
    · exact h q h1
  | none =>
    simp only [roomsJoin, hm, Option.isSome_none, Bool.false_eq_true, if_false] at hq
    rw [mapGet_set_self rooms rid ([] : List String)] at hq
    simp only [Option.getD_some] at hq
    rw [mapSet_absent rooms rid ([] : List String) hm,
      mapSet_append_absent rooms rid ([] : List String)
        (setAdd ([] : List String) sid) hm] at hq
    rcases List.mem_append.mp hq with h1 | h1
    · exact h q h1
    · have h2 : q = (rid, setAdd ([] : List String) sid) := by simpa using h1
      rw [h2]
      exact setAdd_ne_nil ([] : List String) sid

/-- A leave preserves membership of any other socket in any room of the
rooms Map. -/
theorem roomsLeave_mem_other (rooms : List (JsStr × List String))
    (rid : JsStr) (sid sid2 : String) (r : JsStr) (hne : ¬ sid2 = sid)
    (hmem : sid2 ∈ (mapGet rooms r).getD []) :
    sid2 ∈ (mapGet (roomsLeave rooms rid sid) r).getD [] := by
  cases hm : mapGet rooms rid with
  | none =>
    simp only [roomsLeave, hm]
    exact hmem
  | some mem =>
    by_cases hr : r = rid
    · subst hr
      rw [hm] at hmem
      simp only [Option.getD_some] at hmem
      have h2 : sid2 ∈ setDelete mem sid := (mem_setDelete mem sid sid2).mpr ⟨hmem, hne⟩
      have hne2 : ¬ setDelete mem sid = [] := List.ne_nil_of_mem h2
      simp only [roomsLeave, hm, hne2, if_false]
      rw [mapGet_set_self]
      simpa using h2
    · simp only [roomsLeave, hm]
      by_cases he : setDelete mem sid = []
      · simp only [he, if_true]
        rw [mapGet_delete_ne _ _ _ hr]
        exact hmem
      · simp only [he, if_false]
        rw [mapGet_set_ne _ _ _ _ hr]
        exact hmem

/-- A leave never creates an entry of the rooms Map with an empty member
set: the room is deleted the moment its member set empties. -/
theorem roomsLeave_no_empty (rooms : List (JsStr × List String)) (rid : JsStr)
    (sid : String) (h : ∀ q, q ∈ rooms → ¬ q.2 = ([] : List String)) :
    ∀ q, q ∈ roomsLeave rooms rid sid → ¬ q.2 = ([] : List String) := by
  intro q hq
  cases hm : mapGet rooms rid with
  | none =>
    simp only [roomsLeave, hm] at hq
    exact h q hq
  | some mem =>
    by_cases he : setDelete mem sid = []
    · simp only [roomsLeave, hm, he, if_true] at hq
      exact h q (mem_mapDelete _ _ _ hq)
    · simp only [roomsLeave, hm, he, if_false] at hq
      rcases mem_mapSet _ _ _ _ hq with h1 | h1
      · rw [h1]; exact he
      · exact h q h1

/-- A duplicate-free list filters down to a singleton when exactly one of
its elements satisfies the predicate. -/
theorem filter_eq_single {α : Type} [DecidableEq α] (l : List α)
    (p : α → Bool) (a : α) (hnd : l.Nodup) (ha : a ∈ l) (hpa : p a = true)
    (hother : ∀ b, b ∈ l → p b = true → b = a) : l.filter p = [a] := by
  induction l with
  | nil => cases ha
  | cons x xs ih =>
    have hx : ¬ x ∈ xs := (List.nodup_cons.mp hnd).1
    have hxs : xs.Nodup := (List.nodup_cons.mp hnd).2
    by_cases hax : x = a
    · subst hax
      rw [List.filter_cons_of_pos hpa]
      have hnil : xs.filter p = [] := by
        rw [List.filter_eq_nil_iff]
        intro b hb hpb
        exact hx ((hother b (List.mem_cons_of_mem _ hb) hpb) ▸ hb)
      rw [hnil]
    · have hpx : ¬ p x = true :=
        fun hpx => hax (hother x (List.mem_cons_self _ _) hpx)
      rw [List.filter_cons_of_neg (by simpa using hpx)]
      have ha2 : a ∈ xs := by
        rcases List.mem_cons.mp ha with h1 | h1
        · exact absurd h1.symm hax
        · exact h1
      exact ih hxs ha2 (fun b hb hpb => hother b (List.mem_cons_of_mem _ hb) hpb)

/-- A room broadcast never reaches its sender. -/
theorem roomRecipients_not_sender (st : ServerState) (room : JsStr)
    (sid : String) :
    (roomRecipients st room sid).all (fun r => decide (¬ r = sid)) = true := by
  rw [List.all_eq_true]
  intro r hr
  simp only [roomRecipients, List.mem_filter, Bool.and_eq_true,
    decide_eq_true_eq] at hr
  simpa using hr.2.1

/-- A broadcast to a transport room nobody is in reaches nobody. -/
theorem roomRecipients_nil (st : ServerState) (room : JsStr) (sid : String)
    (h : ∀ s, s ∈ st.live → ¬ room ∈ ioRoomsOf st s) :
    roomRecipients st room sid = [] := by
  rw [roomRecipients, List.filter_eq_nil_iff]
  intro s hs
  simp [h s hs]

/-- When exactly one live socket other than the sender is in the
transport room, the broadcast reaches exactly that socket. -/
theorem roomRecipients_single (st : ServerState) (room : JsStr)
    (sid tid : String) (hnd : st.live.Nodup) (htl : tid ∈ st.live)
    (hne : ¬ tid = sid) (hio : room ∈ ioRoomsOf st tid)
    (honly : ∀ s, s ∈ st.live → room ∈ ioRoomsOf st s → s = tid) :
    roomRecipients st room sid = [tid] := by
  rw [roomRecipients]
  apply filter_eq_single _ _ _ hnd htl
  · simp [hne, hio]
  · intro b hb hpb
    simp only [Bool.and_eq_true, decide_eq_true_eq] at hpb
    exact honly b hb hpb.2

/-- The users Map of the state after removeConn. -/
theorem removeConn_users (st : ServerState) (sid : String) :
    (removeConn st sid).users = st.users := rfl

/-- The rooms Map of the state after removeConn. -/
theorem removeConn_rooms (st : ServerState) (sid : String) :
    (removeConn st sid).rooms = st.rooms := rfl

/-- The disconnect handler on a socket with no users entry: only the
transport state and (vacuously) the users Map are touched, and nothing is
broadcast. -/
theorem handleDisconnect_none (st : ServerState) (sid : String)
    (h : mapGet st.users sid = none) :
    handleDisconnect st sid
      = ({ removeConn st sid with users := mapDelete st.users sid }, []) := by
  simp only [handleDisconnect, removeConn_users, h]

/-- The disconnect handler on a socket with a users entry: the entry is
deleted, the socket leaves the member set of its recorded room, and
user-left is broadcast to the transport room of that roomId with the
captured display name. -/
theorem handleDisconnect_some (st : ServerState) (sid : String) (u : UserRec)
    (h : mapGet st.users sid = some u) :
    handleDisconnect st sid
      = ({ removeConn st sid with
            users := mapDelete st.users sid,
            rooms := roomsLeave st.rooms u.roomId sid },
         (roomRecipients (removeConn st sid) u.roomId sid).map
           (fun r => OutEvent.userLeft r sid u.username)) := by
  simp only [handleDisconnect, removeConn_users, removeConn_rooms, h]

/-- The empty state satisfies all invariants. -/
theorem good_empty : GoodState ServerState.empty := by
  refine ⟨?_, ?_, ?_⟩
  · intro sid u h
    simp [ServerState.empty, mapGet] at h
  · intro p hp
    simp [ServerState.empty] at hp
  · intro sid h
    simp [ServerState.empty, mapGet] at h

/-- Accepting a connection preserves the invariants. -/
theorem good_connect (st : ServerState) (sid : String) (h : GoodState st) :
    GoodState (handleConnect st sid) := by
  obtain ⟨h1, h2, h3⟩ := h
  refine ⟨?_, ?_, ?_⟩
  · intro s u hu
    exact h1 s u hu
  · intro p hp
    exact h2 p hp
  · intro s hs
    exact (mem_setAdd st.live sid s).mpr (Or.inl (h3 s hs))

/-- The join-room handler preserves the invariants when the joiner is
live. -/
theorem good_join (st : ServerState) (sid : String) (rid nm : JsStr)
    (h : GoodState st) (hl : sid ∈ st.live) :
    GoodState (handleJoinRoom st sid rid nm).1 := by
  obtain ⟨h1, h2, h3⟩ := h
  refine ⟨?_, ?_, ?_⟩
  · intro s u hu
    have hu2 : mapGet (mapSet st.users sid ⟨nm, rid⟩) s = some u := hu
    by_cases hs : s = sid
    · subst hs
      rw [mapGet_set_self] at hu2
      injection hu2 with hv
      show s ∈ (mapGet (roomsJoin st.rooms rid s) u.roomId).getD []
      rw [← hv]
      show s ∈ (mapGet (roomsJoin st.rooms rid s) rid).getD []
      rw [roomsJoin_get_self]
      simp only [Option.getD_some]
      exact (mem_setAdd _ _ _).mpr (Or.inr rfl)
    · rw [mapGet_set_ne _ _ _ _ hs] at hu2
      show s ∈ (mapGet (roomsJoin st.rooms rid sid) u.roomId).getD []
      exact roomsJoin_mem_preserved st.rooms rid sid u.roomId s (h1 s u hu2)
  · intro p hp
    have hp2 : p ∈ roomsJoin st.rooms rid sid := hp
    exact roomsJoin_no_empty st.rooms rid sid h2 p hp2
  · intro s hs
    have hs2 : (mapGet (mapSet st.users sid ⟨nm, rid⟩) s).isSome = true := hs
    show s ∈ st.live
    by_cases hsx : s = sid
    · subst hsx
      exact hl
    · rw [mapGet_set_ne _ _ _ _ hsx] at hs2
      exact h3 s hs2

/-- The disconnect handler preserves the invariants. -/
theorem good_disconnect (st : ServerState) (sid : String) (h : GoodState st) :
    GoodState (handleDisconnect st sid).1 := by
  obtain ⟨h1, h2, h3⟩ := h
  cases hu : mapGet st.users sid with
  | none =>
    rw [handleDisconnect_none st sid hu]
    refine ⟨?_, ?_, ?_⟩
    · intro s u hs
      have hs2 : mapGet (mapDelete st.users sid) s = some u := hs
      by_cases hsx : s = sid
      · subst hsx
        rw [mapGet_delete_self] at hs2
        cases hs2
      · rw [mapGet_delete_ne _ _ _ hsx] at hs2
        exact h1 s u hs2
    · intro p hp
      exact h2 p hp
    · intro s hs
      have hs2 : (mapGet (mapDelete st.users sid) s).isSome = true := hs
      show s ∈ setDelete st.live sid
      by_cases hsx : s = sid
      · subst hsx
        rw [mapGet_delete_self] at hs2
        cases hs2
      · rw [mapGet_delete_ne _ _ _ hsx] at hs2
        exact (mem_setDelete _ _ _).mpr ⟨h3 s hs2, hsx⟩
  | some u =>
    rw [handleDisconnect_some st sid u hu]
    refine ⟨?_, ?_, ?_⟩
    · intro s u2 hs
      have hs2 : mapGet (mapDelete st.users sid) s = some u2 := hs
      by_cases hsx : s = sid
      · subst hsx
        rw [mapGet_delete_self] at hs2
        cases hs2
      · rw [mapGet_delete_ne _ _ _ hsx] at hs2
        show s ∈ (mapGet (roomsLeave st.rooms u.roomId sid) u2.roomId).getD []
        exact roomsLeave_mem_other st.rooms u.roomId sid s u2.roomId hsx
          (h1 s u2 hs2)
    · intro p hp
      have hp2 : p ∈ roomsLeave st.rooms u.roomId sid := hp
      exact roomsLeave_no_empty st.rooms u.roomId sid h2 p hp2
    · intro s hs
      have hs2 : (mapGet (mapDelete st.users sid) s).isSome = true := hs
      show s ∈ setDelete st.live sid
      by_cases hsx : s = sid
      · subst hsx
        rw [mapGet_delete_self] at hs2
        cases hs2
      · rw [mapGet_delete_ne _ _ _ hsx] at hs2
        exact (mem_setDelete _ _ _).mpr ⟨h3 s hs2, hsx⟩

/-- Every reachable state satisfies the invariants: the users-to-rooms
direction of the membership coherence, the absence of empty rooms, and
the liveness of every directory entry. -/
theorem reachable_good (st : ServerState) (h : Reachable st) : GoodState st := by
  induction h with
  | init => exact good_empty
  | connect st1 sid hr hfresh ih => exact good_connect st1 sid ih
  | ev st1 st2 e t out hr hl hstep ih =>
    cases e with
    | joinRoom sid data =>
      cases data with
      | none => simp [step] at hstep
      | some pr =>
        obtain ⟨rid, nm⟩ := pr
        have hpair : handleJoinRoom st1 sid rid nm = (st2, out) := by
          have h2 := hstep
          simp only [step] at h2
          exact Option.some.inj h2
        have h2 : st2 = (handleJoinRoom st1 sid rid nm).1 := by rw [hpair]
        rw [h2]
        exact good_join st1 sid rid nm ih (by simpa [Event.sender] using hl)
    | offer sid data =>
      cases data with
      | none => simp [step] at hstep
      | some pr =>
        obtain ⟨tid, pl⟩ := pr
        have hpair : handleOffer st1 sid tid pl = (st2, out) := by
          have h2 := hstep
          simp only [step] at h2
          exact Option.some.inj h2
        have h2 : st1 = st2 := congrArg Prod.fst hpair
        rwa [← h2]
    | answer sid data =>
      cases data with
      | none => simp [step] at hstep
      | some pr =>
        obtain ⟨tid, pl⟩ := pr
        have hpair : handleAnswer st1 sid tid pl = (st2, out) := by
          have h2 := hstep
          simp only [step] at h2
          exact Option.some.inj h2
        have h2 : st1 = st2 := congrArg Prod.fst hpair
        rwa [← h2]
    | iceCandidate sid data =>
      cases data with
      | none => simp [step] at hstep
      | some pr =>
        obtain ⟨tid, pl⟩ := pr
        have hpair : handleIceCandidate st1 sid tid pl = (st2, out) := by
          have h2 := hstep
          simp only [step] at h2
          exact Option.some.inj h2
        have h2 : st1 = st2 := congrArg Prod.fst hpair
        rwa [← h2]
    | message sid data =>
      have hm : handleMessage st1 sid data t = some (st2, out) := hstep
      cases hu : mapGet st1.users sid with
      | none =>
        simp only [handleMessage, hu] at hm
        have h2 : st1 = st2 := congrArg Prod.fst (Option.some.inj hm)
        rwa [← h2]
      | some u =>
        cases data with
        | none => simp [handleMessage, hu] at hm
        | some txt =>
          simp only [handleMessage, hu] at hm
          have h2 : st1 = st2 := congrArg Prod.fst (Option.some.inj hm)
          rwa [← h2]
    | disconnect sid =>
      have hpair : handleDisconnect st1 sid = (st2, out) := by
        have h2 := hstep
        simp only [step] at h2
        exact Option.some.inj h2
      have h2 : st2 = (handleDisconnect st1 sid).1 := by rw [hpair]
      rw [h2]
      exact good_disconnect st1 sid ih

/-- The state with only A connected is reachable. -/
theorem reachable_exSt1 : Reachable exSt1 :=
  Reachable.connect ServerState.empty "A" Reachable.init (by decide)

/-- The state where A joined r1 is reachable. -/
theorem reachable_exSt2 : Reachable exSt2 :=
  Reachable.ev exSt1 exSt2
    (Event.joinRoom "A" (some (some "r1", some "alice"))) 1 exOut2
    reachable_exSt1 (by decide) (by decide)

/-- The state where A joined r2 on top of r1 is reachable. -/
theorem reachable_exSt3 : Reachable exSt3 :=
  Reachable.ev exSt2 exSt3
    (Event.joinRoom "A" (some (some "r2", some "alice"))) 2 exOut3
    reachable_exSt2 (by decide) (by decide)

/-- The state with A and C connected is reachable. -/
theorem reachable_gSt2 : Reachable gSt2 :=
  Reachable.connect exSt1 "C" reachable_exSt1 (by decide)

/-- The state where C joined r1 is reachable. -/
theorem reachable_gSt3 : Reachable gSt3 :=
  Reachable.ev gSt2 gSt3
    (Event.joinRoom "C" (some (some "r1", some "carol"))) 3 gP3.2
    reachable_gSt2 (by decide) (by decide)

/-- The state where A joined r1 alongside C is reachable. -/
theorem reachable_gSt4a : Reachable gSt4a :=
  Reachable.ev gSt3 gSt4a
    (Event.joinRoom "A" (some (some "r1", some "alice"))) 4 gP4a.2
    reachable_gSt3 (by decide) (by decide)

/-- The ghost-membership state (C listed under r1 and r2 at once) is
reachable. -/
theorem reachable_gSt5a : Reachable gSt5a :=
  Reachable.ev gSt4a gSt5a
    (Event.joinRoom "C" (some (some "r2", some "carol"))) 5 gP5a.2
    reachable_gSt4a (by decide) (by decide)

/-- The state where C moved to r2 leaving a ghost entry in r1 is
reachable. -/
theorem reachable_gSt4b : Reachable gSt4b :=
  Reachable.ev gSt3 gSt4b
    (Event.joinRoom "C" (some (some "r2", some "carol"))) 4 gP4b.2
    reachable_gSt3 (by decide) (by decide)

/-- Claim C1 (amended): after every fully processed event, if a
connection has a directory entry recording room r, then its identifier is
in the member set of r in RoomDirectory.  The converse direction of the
claimed if-and-only-if is refuted by C1_membership_iff_counterexample:
a join-room never removes the identifier from the member set of the
previously joined room, so a connection can be a member of several rooms
at once, with the directory recording only the most recent. -/
theorem C1_directory_implies_membership (st : ServerState) (sid : String)
    (u : UserRec) (hr : Reachable st) (hu : mapGet st.users sid = some u) :
    sid ∈ (mapGet st.rooms u.roomId).getD [] :=
  (reachable_good st hr).1 sid u hu

/-- Witness for C1 at the reachable state where A joined r1. -/
theorem C1_directory_implies_membership_witness :
    "A" ∈ (mapGet exSt2.rooms (some "r1")).getD [] :=
  C1_directory_implies_membership exSt2 "A" ⟨some "alice", some "r1"⟩
    reachable_exSt2 (by decide)

/-- Counterexample to claim C1 as stated: after the reachable trace
connect A, join r1, join r2, the identifier A is in the member sets of
both r1 and r2 while its directory entry records r2, so membership does
not imply a matching directory entry and A is not a member of exactly one
room. -/
theorem C1_membership_iff_counterexample :
    Reachable exSt3
    ∧ mapGet exSt3.users "A" = some ⟨some "alice", some "r2"⟩
    ∧ "A" ∈ (mapGet exSt3.rooms (some "r1")).getD []
    ∧ "A" ∈ (mapGet exSt3.rooms (some "r2")).getD []
    ∧ ¬ (some "r1" : JsStr) = (some "r2" : JsStr) :=
  ⟨reachable_exSt3, by decide, by decide, by decide, by decide⟩

/-- Claim C2 (amended): when a connection already joined to room R
receives join-room for a different room, the router does not remove its
identifier from the member set of R in RoomDirectory and broadcasts no
user-left event; it only adds the connection to the new room and rewrites
the directory entry to the new room. -/
theorem C2_rejoin_keeps_old_membership (st : ServerState) (sid : String)
    (u : UserRec) (rid2 nm : JsStr) (t : Nat) (st2 : ServerState)
    (out : List OutEvent) (_hu : mapGet st.users sid = some u)
    (hne : ¬ u.roomId = rid2)
    (hmem : sid ∈ (mapGet st.rooms u.roomId).getD [])
    (hstep : step st (Event.joinRoom sid (some (rid2, nm))) t = some (st2, out)) :
    sid ∈ (mapGet st2.rooms u.roomId).getD []
    ∧ out.all (fun o => !(o.isUserLeft)) = true
    ∧ mapGet st2.users sid = some ⟨nm, rid2⟩
    ∧ sid ∈ (mapGet st2.rooms rid2).getD [] := by
  have hpair : handleJoinRoom st sid rid2 nm = (st2, out) := by
    have h2 := hstep
    simp only [step] at h2
    exact Option.some.inj h2
  have hst : st2 = (handleJoinRoom st sid rid2 nm).1 := by rw [hpair]
  have hout : out = (handleJoinRoom st sid rid2 nm).2 := by rw [hpair]
  subst hst
  refine ⟨?_, ?_, ?_, ?_⟩
  · show sid ∈ (mapGet (roomsJoin st.rooms rid2 sid) u.roomId).getD []
    rw [roomsJoin_get_ne _ _ _ _ hne]
    exact hmem
  · rw [hout]
    show (OutEvent.usersInRoom sid
        (joinSnapshot (handleJoinRoom st sid rid2 nm).1 rid2 sid)
      :: (roomRecipients (handleJoinRoom st sid rid2 nm).1 rid2 sid).map
          (fun r => OutEvent.userJoined r sid nm)).all
        (fun o => !(o.isUserLeft)) = true
    rw [List.all_cons, Bool.and_eq_true]
    refine ⟨rfl, ?_⟩
    rw [List.all_eq_true]
    intro o hoo
    rcases List.mem_map.mp hoo with ⟨r, hrr, hrfl⟩
    rw [← hrfl]
    rfl
  · show mapGet (mapSet st.users sid ⟨nm, rid2⟩) sid = some ⟨nm, rid2⟩
    exact mapGet_set_self _ _ _
  · show sid ∈ (mapGet (roomsJoin st.rooms rid2 sid) rid2).getD []
    rw [roomsJoin_get_self]
    simp only [Option.getD_some]
    exact (mem_setAdd _ _ _).mpr (Or.inr rfl)

/-- Witness for C2 at the trace connect A, join r1, join r2. -/
theorem C2_rejoin_keeps_old_membership_witness :
    "A" ∈ (mapGet exSt3.rooms (some "r1")).getD []
    ∧ exOut3.all (fun o => !(o.isUserLeft)) = true
    ∧ mapGet exSt3.users "A" = some ⟨some "alice", some "r2"⟩
    ∧ "A" ∈ (mapGet exSt3.rooms (some "r2")).getD [] :=
  C2_rejoin_keeps_old_membership exSt2 "A" ⟨some "alice", some "r1"⟩
    (some "r2") (some "alice") 2 exSt3 exOut3
    (by decide) (by decide) (by decide) (by decide)

/-- Counterexample to claim C2 as stated: in the reachable state where A
is joined to r1, processing join-room for r2 emits no user-left event and
leaves A in the member set of r1. -/
theorem C2_rejoin_counterexample :
    Reachable exSt2
    ∧ mapGet exSt2.users "A" = some ⟨some "alice", some "r1"⟩
    ∧ "A" ∈ (mapGet exSt2.rooms (some "r1")).getD []
    ∧ step exSt2 (Event.joinRoom "A" (some (some "r2", some "alice"))) 2
        = some (exSt3, exOut3)
    ∧ exOut3.all (fun o => !(o.isUserLeft)) = true
    ∧ "A" ∈ (mapGet exSt3.rooms (some "r1")).getD [] :=
  ⟨reachable_exSt2, by decide, by decide, by decide, by decide, by decide⟩

/-- Claim C3: after every fully processed event no room of RoomDirectory
has an empty member set, and a join-room naming a room absent from
RoomDirectory creates a fresh room whose member set contains exactly the
joiner. -/
theorem C3_no_empty_rooms (st : ServerState) (p : JsStr × List String)
    (rid nm : JsStr) (sid : String) (t : Nat) (st2 : ServerState)
    (out : List OutEvent) (hr : Reachable st) (hp : p ∈ st.rooms)
    (hfresh : mapGet st.rooms rid = none)
    (hstep : step st (Event.joinRoom sid (some (rid, nm))) t = some (st2, out)) :
    ¬ p.2 = ([] : List String) ∧ mapGet st2.rooms rid = some [sid] := by
  refine ⟨(reachable_good st hr).2.1 p hp, ?_⟩
  have hpair : handleJoinRoom st sid rid nm = (st2, out) := by
    have h2 := hstep
    simp only [step] at h2
    exact Option.some.inj h2
  have hst : st2 = (handleJoinRoom st sid rid nm).1 := by rw [hpair]
  subst hst
  show mapGet (roomsJoin st.rooms rid sid) rid = some [sid]
  exact roomsJoin_fresh st.rooms rid sid hfresh

/-- Witness for C3: the room r1 in the reachable state exSt2 is nonempty,
and a join of A into the absent room r2 creates it with member set
exactly A. -/
theorem C3_no_empty_rooms_witness :
    ¬ (["A"] : List String) = ([] : List String)
    ∧ mapGet exSt3.rooms (some "r2") = some ["A"] :=
  C3_no_empty_rooms exSt2 (some "r1", ["A"]) (some "r2") (some "alice") "A" 2
    exSt3 exOut3 reachable_exSt2 (by decide) (by decide) (by decide)

/-- Claim C4 (amended): every ConnectionDirectory entry belongs to a live
transport session, and the status surface reports exactly
RoomDirectory.size and ConnectionDirectory.size.  The other direction of
the claimed if-and-only-if is refuted by C4_live_iff_counterexample: a
live connection that has not yet joined a room has no directory entry. -/
theorem C4_users_live_and_counts (st : ServerState) (sid : String)
    (hr : Reachable st) (hu : (mapGet st.users sid).isSome = true) :
    sid ∈ st.live ∧ healthResponse st = (st.rooms.length, st.users.length) :=
  ⟨(reachable_good st hr).2.2 sid hu, rfl⟩

/-- Witness for C4 at the reachable state where A joined r1. -/
theorem C4_users_live_and_counts_witness :
    "A" ∈ exSt2.live ∧ healthResponse exSt2 = (1, 1) :=
  C4_users_live_and_counts exSt2 "A" reachable_exSt2 (by decide)

/-- Counterexample to claim C4 as stated: right after A connects, its
transport session is live but ConnectionDirectory has no entry for it, so
presence in ConnectionDirectory is not equivalent to liveness. -/
theorem C4_live_iff_counterexample :
    Reachable exSt1 ∧ "A" ∈ exSt1.live ∧ mapGet exSt1.users "A" = none :=
  ⟨reachable_exSt1, by decide, by decide⟩

/-- Claim C5 (amended): an offer, answer or ice-candidate relay is
delivered to the live sockets of the transport room named targetId other
than the sender; when the only such socket is the target itself the relay
is a clean unicast carrying fromId and, for offer and answer, the display
name resolved from the senders directory entry, while ice-candidate omits
the display-name lookup; a targetId naming a transport room nobody is in
is silently dropped with no state change.  The sender itself is always
excluded, so a self-addressed relay is dropped even though the target is
live (see C5_self_target_counterexample). -/
theorem C5_relay_unicast (st : ServerState) (sid tid : String)
    (pl rm2 : JsStr) (t : Nat) (hnd : st.live.Nodup) (htl : tid ∈ st.live)
    (hne : ¬ tid = sid) (hio : (some tid : JsStr) ∈ ioRoomsOf st tid)
    (honly : ∀ s, s ∈ st.live → (some tid : JsStr) ∈ ioRoomsOf st s → s = tid)
    (hmiss : ∀ s, s ∈ st.live → ¬ rm2 ∈ ioRoomsOf st s) :
    step st (Event.offer sid (some (some tid, pl))) t
      = some (st, [OutEvent.offer tid sid (userNameOf st sid) pl])
    ∧ step st (Event.answer sid (some (some tid, pl))) t
      = some (st, [OutEvent.answer tid sid (userNameOf st sid) pl])
    ∧ step st (Event.iceCandidate sid (some (some tid, pl))) t
      = some (st, [OutEvent.iceCandidate tid sid pl])
    ∧ step st (Event.offer sid (some (rm2, pl))) t = some (st, [])
    ∧ step st (Event.answer sid (some (rm2, pl))) t = some (st, [])
    ∧ step st (Event.iceCandidate sid (some (rm2, pl))) t = some (st, []) := by
  have hsingle := roomRecipients_single st (some tid) sid tid hnd htl hne hio honly
  have hnil := roomRecipients_nil st rm2 sid hmiss
  refine ⟨?_, ?_, ?_, ?_, ?_, ?_⟩
  · show some (st, (roomRecipients st (some tid) sid).map
        (fun r => OutEvent.offer r sid (userNameOf st sid) pl))
      = some (st, [OutEvent.offer tid sid (userNameOf st sid) pl])
    rw [hsingle]
    rfl
  · show some (st, (roomRecipients st (some tid) sid).map
        (fun r => OutEvent.answer r sid (userNameOf st sid) pl))
      = some (st, [OutEvent.answer tid sid (userNameOf st sid) pl])
    rw [hsingle]
    rfl
  · show some (st, (roomRecipients st (some tid) sid).map
        (fun r => OutEvent.iceCandidate r sid pl))
      = some (st, [OutEvent.iceCandidate tid sid pl])
    rw [hsingle]
    rfl
  · show some (st, (roomRecipients st rm2 sid).map
        (fun r => OutEvent.offer r sid (userNameOf st sid) pl))
      = some (st, [])
    rw [hnil]
    rfl
  · show some (st, (roomRecipients st rm2 sid).map
        (fun r => OutEvent.answer r sid (userNameOf st sid) pl))
      = some (st, [])
    rw [hnil]
    rfl
  · show some (st, (roomRecipients st rm2 sid).map
        (fun r => OutEvent.iceCandidate r sid pl))
      = some (st, [])
    rw [hnil]
    rfl

/-- Witness for C5: A (joined, display name alice) relays to B, and a
relay naming the unused room zz is dropped. -/
theorem C5_relay_unicast_witness :
    step w5St (Event.offer "A" (some (some "B", some "sdp"))) 3
      = some (w5St, [OutEvent.offer "B" "A" (some "alice") (some "sdp")])
    ∧ step w5St (Event.answer "A" (some (some "B", some "sdp"))) 3
      = some (w5St, [OutEvent.answer "B" "A" (some "alice") (some "sdp")])
    ∧ step w5St (Event.iceCandidate "A" (some (some "B", some "sdp"))) 3
      = some (w5St, [OutEvent.iceCandidate "B" "A" (some "sdp")])
    ∧ step w5St (Event.offer "A" (some (some "zz", some "sdp"))) 3
      = some (w5St, [])
    ∧ step w5St (Event.answer "A" (some (some "zz", some "sdp"))) 3
      = some (w5St, [])
    ∧ step w5St (Event.iceCandidate "A" (some (some "zz", some "sdp"))) 3
      = some (w5St, []) :=
  C5_relay_unicast w5St "A" "B" (some "sdp") (some "zz") 3 (by decide)
    (by decide) (by decide) (by decide) (by decide) (by decide)

/-- Counterexample to claim C5 as stated: in the reachable state exSt2
the target A of a self-addressed offer is live, yet the relay delivers
nothing, because socket.to always excludes the sender. -/
theorem C5_self_target_counterexample :
    Reachable exSt2 ∧ "A" ∈ exSt2.live
    ∧ step exSt2 (Event.offer "A" (some (some "A", some "x"))) 7
        = some (exSt2, []) :=
  ⟨reachable_exSt2, by decide, by decide⟩

/-- Claim C6 (amended): a message from a connection with no directory
entry is silently dropped with no outbound event and no state change; a
message from a Joined connection is relayed, with the senders identifier,
recorded display name, text and a router-assigned timestamp, to the live
sockets of the transport room named by the senders recorded roomId —
that is, to every other connection whose most recent join was that room,
not to every identifier in the member set of RoomDirectory (see
C6_stale_member_counterexample) — and never to the sender itself. -/
theorem C6_message_relay (st : ServerState) (sidU sidJ : String)
    (u : UserRec) (d : Option JsStr) (txt : JsStr) (t : Nat)
    (hU : mapGet st.users sidU = none)
    (hJ : mapGet st.users sidJ = some u) :
    step st (Event.message sidU d) t = some (st, [])
    ∧ step st (Event.message sidJ (some txt)) t
      = some (st, (roomRecipients st u.roomId sidJ).map
          (fun r => OutEvent.message r sidJ u.username txt t))
    ∧ (roomRecipients st u.roomId sidJ).all
        (fun r => decide (¬ r = sidJ)) = true := by
  refine ⟨?_, ?_, roomRecipients_not_sender st u.roomId sidJ⟩
  · show handleMessage st sidU d t = some (st, [])
    simp only [handleMessage, hU]
  · show handleMessage st sidJ (some txt) t = _
    simp only [handleMessage, hJ]

/-- Witness for C6: in w5St the unjoined B is ignored even with an absent
payload, and a message from A (joined to r1, alone there) is relayed to
nobody and in particular not to A. -/
theorem C6_message_relay_witness :
    step w5St (Event.message "B" none) 4 = some (w5St, [])
    ∧ step w5St (Event.message "A" (some (some "hi"))) 4 = some (w5St, [])
    ∧ (roomRecipients w5St (some "r1") "A").all
        (fun r => decide (¬ r = "A")) = true :=
  C6_message_relay w5St "B" "A" ⟨some "alice", some "r1"⟩ none (some "hi") 4
    (by decide) (by decide)

/-- Counterexample to claim C6 as stated: in the reachable ghost state
the member set of r1 still lists C, another live member distinct from the
sender A, yet the message from A is delivered to nobody, because C has
moved to the transport room of r2. -/
theorem C6_stale_member_counterexample :
    Reachable gSt5a
    ∧ mapGet gSt5a.users "A" = some ⟨some "alice", some "r1"⟩
    ∧ "C" ∈ (mapGet gSt5a.rooms (some "r1")).getD []
    ∧ "C" ∈ gSt5a.live
    ∧ ¬ "C" = "A"
    ∧ step gSt5a (Event.message "A" (some (some "hi"))) 9 = some (gSt5a, []) :=
  ⟨reachable_gSt5a, by decide, by decide, by decide, by decide, by decide⟩

/-- Claim C7 (amended): on join-room the joiner receives a users-in-room
event listing id and display name of every other identifier in the member
set of the joined room (snapshot taken after the join, never containing
the joiner), and a user-joined event with the joiners id and display name
goes to the other live sockets of the transport room — not to every
identifier in the member set (see C7_user_joined_counterexample); neither
list ever contains the originator. -/
theorem C7_join_notifications (st : ServerState) (sid : String)
    (rid nm : JsStr) (t : Nat) (st2 : ServerState) (out : List OutEvent)
    (hstep : step st (Event.joinRoom sid (some (rid, nm))) t = some (st2, out)) :
    out = OutEvent.usersInRoom sid (joinSnapshot st2 rid sid)
        :: (roomRecipients st2 rid sid).map
            (fun r => OutEvent.userJoined r sid nm)
    ∧ (joinSnapshot st2 rid sid).all (fun q => decide (¬ q.1 = sid)) = true
    ∧ (roomRecipients st2 rid sid).all (fun r => decide (¬ r = sid)) = true := by
  have hpair : handleJoinRoom st sid rid nm = (st2, out) := by
    have h2 := hstep
    simp only [step] at h2
    exact Option.some.inj h2
  have hst : st2 = (handleJoinRoom st sid rid nm).1 := by rw [hpair]
  have hout : out = (handleJoinRoom st sid rid nm).2 := by rw [hpair]
  subst hst
  refine ⟨by rw [hout]; rfl, ?_, roomRecipients_not_sender _ rid sid⟩
  rw [List.all_eq_true]
  intro q hq
  simp only [joinSnapshot, List.mem_map, List.mem_filter] at hq
  obtain ⟨i, ⟨hi1, hi2⟩, hi3⟩ := hq
  have hi4 : ¬ i = sid := by simpa using hi2
  rw [← hi3]
  simpa using hi4

/-- Witness for C7: the first join of A into r1 yields the empty snapshot
and an empty user-joined broadcast, neither mentioning A. -/
theorem C7_join_notifications_witness :
    exOut2 = OutEvent.usersInRoom "A" (joinSnapshot exSt2 (some "r1") "A")
        :: (roomRecipients exSt2 (some "r1") "A").map
            (fun r => OutEvent.userJoined r "A" (some "alice"))
    ∧ (joinSnapshot exSt2 (some "r1") "A").all
        (fun q => decide (¬ q.1 = "A")) = true
    ∧ (roomRecipients exSt2 (some "r1") "A").all
        (fun r => decide (¬ r = "A")) = true :=
  C7_join_notifications exSt1 "A" (some "r1") (some "alice") 1 exSt2 exOut2
    (by decide)

/-- Counterexample to claim C7 as stated: in the reachable state gSt4b
the ghost C is in the member set of r1, is live and distinct from the
joiner A, yet the join of A emits only the snapshot to A — C, another
member of the room, receives no user-joined event. -/
theorem C7_user_joined_counterexample :
    Reachable gSt4b
    ∧ step gSt4b (Event.joinRoom "A" (some (some "r1", some "alice"))) 9
        = some (gSt5b, gOut5b)
    ∧ gOut5b = [OutEvent.usersInRoom "A" [("C", some "carol")]]
    ∧ "C" ∈ (mapGet gSt5b.rooms (some "r1")).getD []
    ∧ "C" ∈ gSt5b.live
    ∧ ¬ "C" = "A" :=
  ⟨reachable_gSt4b, by decide, by decide, by decide, by decide, by decide⟩

/-- Claim C8 (amended): processing transport close is idempotent — a
second close for the same identifier (or a close of a connection that
never joined) produces no broadcast and leaves ConnectionDirectory and
RoomDirectory unchanged; a first close of a Joined connection broadcasts
user-left, with the display name captured from the directory entry before
removal, to the live sockets remaining in the transport room of its
recorded roomId — not to every identifier left in the member set of
RoomDirectory (see C8_user_left_counterexample). -/
theorem C8_disconnect_idempotent (st : ServerState) (sid : String)
    (u : UserRec) (t1 t2 : Nat) (st1 st2 : ServerState)
    (out1 out2 : List OutEvent) (hu : mapGet st.users sid = some u)
    (h1 : step st (Event.disconnect sid) t1 = some (st1, out1))
    (h2 : step st1 (Event.disconnect sid) t2 = some (st2, out2)) :
    out1 = (roomRecipients (removeConn st sid) u.roomId sid).map
        (fun r => OutEvent.userLeft r sid u.username)
    ∧ out2 = []
    ∧ st2.users = st1.users
    ∧ st2.rooms = st1.rooms := by
  have hp1 : handleDisconnect st sid = (st1, out1) := by
    have h3 := h1
    simp only [step] at h3
    exact Option.some.inj h3
  rw [handleDisconnect_some st sid u hu] at hp1
  have hst1 : ({ removeConn st sid with
      users := mapDelete st.users sid,
      rooms := roomsLeave st.rooms u.roomId sid } : ServerState) = st1 :=
    congrArg Prod.fst hp1
  have hout1 : (roomRecipients (removeConn st sid) u.roomId sid).map
      (fun r => OutEvent.userLeft r sid u.username) = out1 :=
    congrArg Prod.snd hp1
  have hu2 : mapGet st1.users sid = none := by
    rw [← hst1]
    show mapGet (mapDelete st.users sid) sid = none
    exact mapGet_delete_self _ _
  have hp2 : handleDisconnect st1 sid = (st2, out2) := by
    have h3 := h2
    simp only [step] at h3
    exact Option.some.inj h3
  rw [handleDisconnect_none st1 sid hu2] at hp2
  have hst2 : ({ removeConn st1 sid with
      users := mapDelete st1.users sid } : ServerState) = st2 :=
    congrArg Prod.fst hp2
  have hout2 : ([] : List OutEvent) = out2 := congrArg Prod.snd hp2
  refine ⟨hout1.symm, hout2.symm, ?_, ?_⟩
  · rw [← hst2]
    show mapDelete st1.users sid = st1.users
    exact mapDelete_absent st1.users sid hu2
  · rw [← hst2]
    rfl

/-- Witness for C8: disconnecting A twice from exSt2; the lone member A
leaves an empty transport room so even the first broadcast reaches
nobody, and the second close changes neither directory. -/
theorem C8_disconnect_idempotent_witness :
    w8Out1 = []
    ∧ w8Out2 = []
    ∧ w8St2.users = w8St1.users
    ∧ w8St2.rooms = w8St1.rooms :=
  C8_disconnect_idempotent exSt2 "A" ⟨some "alice", some "r1"⟩ 5 6
    w8St1 w8St2 w8Out1 w8Out2 (by decide) (by decide) (by decide)

/-- Counterexample to claim C8 as stated: in the reachable ghost state
the member set of r1 still lists the live C after A is removed by the
disconnect, yet the user-left broadcast of the first close of A reaches
nobody, because C is only in the transport room of r2. -/
theorem C8_user_left_counterexample :
    Reachable gSt5a
    ∧ mapGet gSt5a.users "A" = some ⟨some "alice", some "r1"⟩
    ∧ step gSt5a (Event.disconnect "A") 9 = some (c8xSt, [])
    ∧ "C" ∈ (mapGet c8xSt.rooms (some "r1")).getD []
    ∧ "C" ∈ c8xSt.live :=
  ⟨reachable_gSt5a, by decide, by decide, by decide, by decide⟩

/-- Claim C9: the code, not the claim, is at fault here — an event whose
payload object is entirely absent makes the handler throw a TypeError
(modelled by step returning none): destructuring data in join-room,
offer, answer and ice-candidate, and reading data.message in the message
handler of a Joined sender, all raise instead of degrading to a no-op. -/
theorem C9_missing_payload_raises :
    Reachable exSt2
    ∧ mapGet exSt2.users "A" = some ⟨some "alice", some "r1"⟩
    ∧ step exSt2 (Event.message "A" none) 5 = none
    ∧ step exSt2 (Event.joinRoom "A" none) 5 = none
    ∧ step exSt2 (Event.offer "A" none) 5 = none
    ∧ step exSt2 (Event.answer "A" none) 5 = none
    ∧ step exSt2 (Event.iceCandidate "A" none) 5 = none :=
  ⟨reachable_exSt2, by decide, by decide, by decide, by decide, by decide,
    by decide⟩

/-- Claim C10: offer, answer and ice-candidate are relayed even when the
sender has no ConnectionDirectory entry — the Joined precondition is not
enforced for these events — and the outbound display-name field of offer
and answer is then simply absent. -/
theorem C10_unjoined_relay (st : ServerState) (sid tid : String)
    (pl : JsStr) (t : Nat) (hnd : st.live.Nodup) (htl : tid ∈ st.live)
    (hne : ¬ tid = sid) (hio : (some tid : JsStr) ∈ ioRoomsOf st tid)
    (honly : ∀ s, s ∈ st.live → (some tid : JsStr) ∈ ioRoomsOf st s → s = tid)
    (hunj : mapGet st.users sid = none) :
    step st (Event.offer sid (some (some tid, pl))) t
      = some (st, [OutEvent.offer tid sid none pl])
    ∧ step st (Event.answer sid (some (some tid, pl))) t
      = some (st, [OutEvent.answer tid sid none pl])
    ∧ step st (Event.iceCandidate sid (some (some tid, pl))) t
      = some (st, [OutEvent.iceCandidate tid sid pl]) := by
  have hsingle := roomRecipients_single st (some tid) sid tid hnd htl hne hio honly
  have hname : userNameOf st sid = none := by simp [userNameOf, hunj]
  refine ⟨?_, ?_, ?_⟩
  · show some (st, (roomRecipients st (some tid) sid).map
        (fun r => OutEvent.offer r sid (userNameOf st sid) pl))
      = some (st, [OutEvent.offer tid sid none pl])
    rw [hsingle, hname]
    rfl
  · show some (st, (roomRecipients st (some tid) sid).map
        (fun r => OutEvent.answer r sid (userNameOf st sid) pl))
      = some (st, [OutEvent.answer tid sid none pl])
    rw [hsingle, hname]
    rfl
  · show some (st, (roomRecipients st (some tid) sid).map
        (fun r => OutEvent.iceCandidate r sid pl))
      = some (st, [OutEvent.iceCandidate tid sid pl])
    rw [hsingle]
    rfl

/-- Witness for C10: A is live but unjoined in w10St and its relays to B
are delivered with an absent display name. -/
theorem C10_unjoined_relay_witness :
    step w10St (Event.offer "A" (some (some "B", some "sdp"))) 6
      = some (w10St, [OutEvent.offer "B" "A" none (some "sdp")])
    ∧ step w10St (Event.answer "A" (some (some "B", some "sdp"))) 6
      = some (w10St, [OutEvent.answer "B" "A" none (some "sdp")])
    ∧ step w10St (Event.iceCandidate "A" (some (some "B", some "sdp"))) 6
      = some (w10St, [OutEvent.iceCandidate "B" "A" (some "sdp")]) :=
  C10_unjoined_relay w10St "A" "B" (some "sdp") 6 (by decide) (by decide)
    (by decide) (by decide) (by decide) (by decide)
